import Mathlib

/-!
# Verification of the NanoChat inference server streaming pipeline

A shallow embedding of `src/cmd/nanochat/inference_server.py` (the
`NanoChatInference` class and the `/chat/completions` endpoint of
`create_app`) together with theorems settling the specification claims
about it.

Modelling conventions:
* Python ints are `ℤ` (or `ℕ` for token ids, which are non-negative),
  Python floats that only ever undergo exact arithmetic here are `ℚ`.
* Code that may raise is embedded in `Except String`; a `.error` value
  is a raised exception carrying its message.
* The torch model forward pass and the softmax-plus-multinomial draw are
  external numerics (opaque per the spec); they enter as function
  parameters `forward` and `sample`.  Everything between them — the
  temperature scaling, the top-k masking, the EOS check, the decoding,
  the event stream assembly — is embedded concretely from the source.
* A logit vector after masking is a `List (Option ℚ)`: `none` stands for
  a logit overwritten with `float('-inf')`, `some v` for a kept logit.
* The server-sent events of `stream_completion` are abstracted to their
  payloads: `Event.token f` for `data: {"token": f}`, `Event.done` for
  `data: {"done": true}` and `Event.error m` for `data: {"error": m}`.
-/

/-- `ChatMessage` (pydantic model, inference_server.py lines 52-55). -/
structure ChatMessage where
  role : String
  content : String
deriving DecidableEq, Repr

/-- `ChatCompletionRequest` (lines 58-64).  Note that the schema has
fields `messages`, `temperature`, `max_tokens`, `top_k` and `model`
only; in particular there is no `top_p` field. -/
structure ChatCompletionRequest where
  messages : List ChatMessage
  temperature : Option ℚ := some (7/10)
  max_tokens : Option ℤ := some 512
  top_k : Option ℤ := some 50
  model : Option String := some "nanochat"

/-- The duck-typed tokenizer object.  Each optional field is a
capability (`hasattr` check in the source); the `Except` result models
the underlying call raising. -/
structure Tokenizer where
  encode? : Option (String → Except String (List ℕ))
  decode? : Option (List ℤ → Except String String)
  decodeSingleTokenUtf8? : Option (ℤ → Except String String)

/-- Python `chr` restricted to the guard `0 <= token_id < 256` under
which the source calls it. -/
def pyChr (tid : ℤ) : String :=
  (Char.ofNat tid.toNat).toString

/-- The body of the `try` block of `_decode_token` (lines 369-377):
real `decode([token_id])` if present, else `decode_single_token_utf8`,
else `chr(token_id)` for ids in `[0, 256)` and `"?"` otherwise.  An
`.error` result is an exception escaping the block. -/
def decode_token_attempt (tok : Tokenizer) (tid : ℤ) : Except String String :=
  match tok.decode? with
  | some d => d [tid]
  | none =>
    match tok.decodeSingleTokenUtf8? with
    | some d => d tid
    | none => Except.ok (if 0 ≤ tid ∧ tid < 256 then pyChr tid else "?")

/-- `NanoChatInference._decode_token` (lines 367-380): the attempt above
wrapped in `try/except` returning the placeholder `"?"` on any
exception. -/
def decode_token (tok : Tokenizer) (tid : ℤ) : String :=
  match decode_token_attempt tok tid with
  | Except.ok s => s
  | Except.error _ => "?"

/-- Encoding one piece of text: the tokenizer's `encode` when the
capability is present, else the character-level fallback
`[ord(c) for c in text]` (lines 347-351 et al.). -/
def encode_text (tok : Tokenizer) (s : String) : Except String (List ℕ) :=
  match tok.encode? with
  | some e => e s
  | none => Except.ok (s.data.map Char.toNat)

/-- The text a message contributes in `_build_conversation_tokens`
(lines 344-357): `"User: {content}\n"` for role `"user"`,
`"Assistant: {content}\n"` for role `"assistant"`, nothing for any
other role. -/
def format_message (m : ChatMessage) : Option String :=
  if m.role = "user" then some ("User: " ++ m.content ++ "\n")
  else if m.role = "assistant" then some ("Assistant: " ++ m.content ++ "\n")
  else none

/-- Whether `_build_conversation_tokens` recognises the message's role:
exactly `"user"` and `"assistant"` are handled, everything else falls
through the `if/elif` silently. -/
def keeps_role (m : ChatMessage) : Bool :=
  m.role == "user" || m.role == "assistant"

/-- The message loop of `_build_conversation_tokens` (lines 344-357):
tokens contributed by the messages, in order (`Except.bind` sequences
the possibly-raising `encode` calls exactly as the Python loop does). -/
def messages_tokens (tok : Tokenizer) : List ChatMessage → Except String (List ℕ)
  | [] => Except.ok []
  | m :: rest =>
    Except.bind
      (match format_message m with
       | some s => encode_text tok s
       | none => Except.ok [])
      (fun here => Except.bind (messages_tokens tok rest)
        (fun there => Except.ok (here ++ there)))

/-- `NanoChatInference._build_conversation_tokens` (lines 337-365):
the message loop followed by the `"Assistant: "` turn opener. -/
def build_conversation_tokens (tok : Tokenizer) (msgs : List ChatMessage) :
    Except String (List ℕ) :=
  Except.bind (messages_tokens tok msgs) (fun body =>
    Except.bind (encode_text tok "Assistant: ")
      (fun sfx => Except.ok (body ++ sfx)))

/-- Lines 258-260 of `stream_completion`: the conversation tokens, with
`[1]` substituted when the encoding came back empty. -/
def initial_context (tok : Tokenizer) (msgs : List ChatMessage) :
    Except String (List ℕ) :=
  Except.bind (build_conversation_tokens tok msgs)
    (fun ts => Except.ok (if ts = [] then [1] else ts))

/-- Lines 265-274 of `stream_completion`: resolve the end-of-sequence
id by encoding the end marker, falling back to `2` when the capability
is absent, the call raises, or the encoding is empty. -/
def eos_token_id (tok : Tokenizer) : ℕ :=
  match tok.encode? with
  | some e =>
    match e "<|end|>" with
    | Except.ok (t :: _) => t
    | Except.ok [] => 2
    | Except.error _ => 2
  | none => 2

/-- Line 290-291: `if temperature > 0: next_logits = next_logits / temperature`. -/
def scale_logits (temperature : ℚ) (lg : List ℚ) : List ℚ :=
  if 0 < temperature then lg.map (· / temperature) else lg

/-- The number of candidates strictly preceding index `i` in the order
`torch.topk` selects by: higher logit first, ties broken by lower
original index. -/
def top_k_rank (lg : List ℚ) (i : ℕ) : ℕ :=
  ((List.range lg.length).filter
    (fun j => decide (lg.getD i 0 < lg.getD j 0 ∨ (lg.getD j 0 = lg.getD i 0 ∧ j < i)))).length

/-- Lines 294-301: `torch.topk(next_logits, min(top_k, n))` followed by
scattering the kept values into a tensor of `-inf`.  Entry `i` of the
result is the original logit when `i` is among the `min(top_k, n)`
largest (ties by lower index) and `none` (masked to `-inf`) otherwise. -/
def top_k_mask (k : ℕ) (lg : List ℚ) : List (Option ℚ) :=
  (List.range lg.length).map
    (fun i => if top_k_rank lg i < min k lg.length then some (lg.getD i 0) else none)

/-- Lines 289-301 of the loop body: temperature scaling then the
`if top_k > 0` top-k filter.  When `top_k` is `None` (the endpoint
passes `None` for a falsy request value) the comparison `top_k > 0`
raises a `TypeError`, embedded as the `.error` branch. -/
def filter_logits (temperature : ℚ) (top_k : Option ℤ) (lg : List ℚ) :
    Except String (List (Option ℚ)) :=
  let scaled := scale_logits temperature lg
  match top_k with
  | none => Except.error "TypeError: NoneType and int are not comparable"
  | some k =>
    Except.ok (if 0 < k then top_k_mask k.toNat scaled else scaled.map some)

/-- One iteration of the generation loop up to the sampled id (lines
283-307): the forward pass (`forward`, opaque torch numerics yielding
the last-position logits), the concrete filtering, then softmax plus
`torch.multinomial` (`sample`, opaque torch numerics drawing an index
from the masked logits). -/
def sample_next_token (forward : List ℕ → Except String (List ℚ))
    (sample : List (Option ℚ) → Except String ℕ)
    (temperature : ℚ) (top_k : Option ℤ) (x : List ℕ) : Except String ℕ :=
  Except.bind (forward x) (fun lg =>
    Except.bind (filter_logits temperature top_k lg) (fun masked =>
      sample masked))

/-- The payload of one server-sent event yielded by
`stream_completion`: a token fragment, the success terminal
`{"done": true}`, or the error terminal `{"error": msg}`. -/
inductive Event where
  | token (fragment : String)
  | done
  | error (message : String)
deriving DecidableEq, Repr

/-- Which exit the generation loop took: the spec's `STOPPED_EOS` /
`STOPPED_MAXLEN` / `FAILED` states.  In the source these are,
respectively, the `break` on sampling the EOS id (line 310-312), the
`while token_count < max_tokens` condition turning false (line 282),
and an exception reaching the `except` clause (lines 333-335). -/
inductive StopState where
  | eos
  | maxlen
  | failed
deriving DecidableEq, Repr

/-- The `while token_count < max_tokens` loop of `stream_completion`
(lines 282-331) plus the terminal yields: `fuel` is
`max_tokens - token_count`, `x` the current token sequence, `σ` one
forward-filter-sample iteration.  A sampled EOS breaks before the token
is decoded or emitted; otherwise the fragment event is emitted and the
id appended.  The trailing success event `{"done": true}` (line 330) is
emitted on both non-exceptional exits; an exception is converted into a
single terminal error event (lines 333-335).  (The cooperative
`await asyncio.sleep(0)` every 10 steps has no effect on the event
sequence and is not modelled.) -/
def generation_loop (σ : List ℕ → Except String ℕ) (tok : Tokenizer) (eos : ℕ) :
    ℕ → List ℕ → List Event × StopState
  | 0, _ => ([Event.done], StopState.maxlen)
  | fuel + 1, x =>
    match σ x with
    | Except.error e => ([Event.error e], StopState.failed)
    | Except.ok t =>
      if t = eos then ([Event.done], StopState.eos)
      else
        let rest := generation_loop σ tok eos fuel (x ++ [t])
        (Event.token (decode_token tok (Int.ofNat t)) :: rest.1, rest.2)

/-- `NanoChatInference.stream_completion` (lines 244-335): the emitted
event payloads in order, together with the exit state.  Building the
initial context happens inside the outer `try`, so a raising `encode`
there also becomes a single terminal error event. -/
def stream_completion (forward : List ℕ → Except String (List ℚ))
    (sample : List (Option ℚ) → Except String ℕ) (tok : Tokenizer)
    (msgs : List ChatMessage) (temperature : ℚ) (max_tokens : ℕ)
    (top_k : Option ℤ) : List Event × StopState :=
  match initial_context tok msgs with
  | Except.error e => ([Event.error e], StopState.failed)
  | Except.ok x0 =>
    generation_loop (sample_next_token forward sample temperature top_k) tok
      (eos_token_id tok) max_tokens x0

/-- Python `x or d` for an optional float: `None` and `0.0` are falsy. -/
def pyOrQ (x : Option ℚ) (d : ℚ) : ℚ :=
  match x with
  | none => d
  | some v => if v = 0 then d else v

/-- Python `x or d` for an optional int: `None` and `0` are falsy. -/
def pyOrZ (x : Option ℤ) (d : ℤ) : ℤ :=
  match x with
  | none => d
  | some v => if v = 0 then d else v

/-- Line 481: `temperature = max(0.0, min(2.0, request.temperature or 0.7))`. -/
def clamp_temperature (t : Option ℚ) : ℚ :=
  max 0 (min 2 (pyOrQ t (7/10)))

/-- Line 482: `max_tokens = max(1, min(4096, request.max_tokens or 512))`. -/
def clamp_max_tokens (m : Option ℤ) : ℤ :=
  max 1 (min 4096 (pyOrZ m 512))

/-- Line 483: `top_k = max(1, min(200, request.top_k or 50)) if
request.top_k else None` — a falsy `top_k` (absent, `null`, or `0`)
becomes `None`; otherwise `request.top_k or 50` is the value itself. -/
def clamp_top_k (k : Option ℤ) : Option ℤ :=
  match k with
  | none => none
  | some v => if v = 0 then none else some (max 1 (min 200 v))

/-- The `/chat/completions` handler `chat_completions` (lines 463-499):
message validation (`.error` is an HTTPException rejecting the request
before any stream exists), parameter clamping, then the streaming
response.  The model-readiness checks concern process state outside
this embedding. -/
def chat_completions (forward : List ℕ → Except String (List ℚ))
    (sample : List (Option ℚ) → Except String ℕ) (tok : Tokenizer)
    (req : ChatCompletionRequest) : Except String (List Event × StopState) :=
  if req.messages = [] then Except.error "No messages provided"
  else if 500 < req.messages.length then Except.error "Too many messages (max 500)"
  else Except.ok (stream_completion forward sample tok req.messages
    (clamp_temperature req.temperature)
    (clamp_max_tokens req.max_tokens).toNat
    (clamp_top_k req.top_k))

/-- Insertion into a descending-sorted list of rationals. -/
def insert_desc (a : ℚ) : List ℚ → List ℚ
  | [] => [a]
  | b :: bs => if b < a then a :: b :: bs else b :: insert_desc a bs

/-- Descending insertion sort on rationals. -/
def sort_desc : List ℚ → List ℚ
  | [] => []
  | a :: as => insert_desc a (sort_desc as)

/-- The length of the minimal prefix of `ps` whose sum reaches `topP`
(all of `ps` if never reached). -/
def nucleus_take : List ℚ → ℚ → ℕ
  | [], _ => 0
  | p :: ps, topP =>
    if topP ≤ 0 then 0
    else if topP ≤ p then 1
    else 1 + nucleus_take ps (topP - p)

/-- Modelled from the spec: nucleus (top-p) filtering, which is absent
from the source — "sort remaining candidates by probability descending,
keep the minimal prefix whose cumulative probability ≥ top_p, mask the
rest to negative infinity."  Given the probability vector, this is the
size of the kept prefix (the number of unmasked candidates nucleus
filtering would leave).  It exists only to compare the claimed
behaviour against the code's actual masking. -/
def nucleus_keep_count (topP : ℚ) (probs : List ℚ) : ℕ :=
  nucleus_take (sort_desc probs) topP

/-- A tokenizer object with none of the three capabilities: every call
takes the character-level fallback paths. -/
def charFallbackTokenizer : Tokenizer := ⟨none, none, none⟩

/-- A tokenizer whose `encode` always succeeds with the empty token
list, driving the empty-encoding path of `stream_completion`. -/
def emptyEncodeTokenizer : Tokenizer :=
  ⟨some (fun _ => Except.ok []), none, none⟩

/-- Concrete one-message conversation used by the witnesses. -/
def msgsHi : List ChatMessage := [⟨"user", "Hi"⟩]

/-- The character-fallback encoding of `"User: Hi\n" ++ "Assistant: "`:
the initial context `stream_completion` builds for `msgsHi` with
`charFallbackTokenizer` (20 ids). -/
def ctxHi : List ℕ :=
  [85, 115, 101, 114, 58, 32, 72, 105, 10,
   65, 115, 115, 105, 115, 116, 97, 110, 116, 58, 32]

/-- Concrete forward oracle for the witnesses: a one-entry logit vector
recording the context length, so the sampler can tell steps apart. -/
def fwdLen : List ℕ → Except String (List ℚ) :=
  fun x => Except.ok [(x.length : ℚ)]

/-- Concrete sampler for the EOS witness: token 65 at context length
20, then the resolved EOS id 2. -/
def smpEos : List (Option ℚ) → Except String ℕ := fun m =>
  match m with
  | [some v] => Except.ok (if v = 20 then 65 else 2)
  | _ => Except.ok 0

/-- Concrete sampler for the max-length witness: tokens 65 then 66,
never the EOS id. -/
def smpAB : List (Option ℚ) → Except String ℕ := fun m =>
  match m with
  | [some v] => Except.ok (if v = 20 then 65 else 66)
  | _ => Except.ok 0

/-- Concrete request whose `top_k` field is explicitly `0`. -/
def reqTopKZero : ChatCompletionRequest :=
  { messages := msgsHi, temperature := some 1, max_tokens := some 5,
    top_k := some 0, model := some "nanochat" }

/-- Concrete conversation opening with a message of role `"system"`,
which `_build_conversation_tokens` skips. -/
def msgsSys : List ChatMessage := [⟨"system", "S"⟩, ⟨"user", "Hi"⟩]

/-- The fragment event a sampled id `t` produces. -/
def token_event (tok : Tokenizer) (t : ℕ) : Event :=
  Event.token (decode_token tok (Int.ofNat t))

/-- The concatenated text of the formatted messages, in order; messages
with an unrecognised role contribute nothing. -/
def formatted_body : List ChatMessage → String
  | [] => ""
  | m :: rest => (format_message m).getD "" ++ formatted_body rest

/-- The full text whose encoding `_build_conversation_tokens` returns:
the formatted messages followed by the assistant turn opener. -/
def formatted_text (msgs : List ChatMessage) : String :=
  formatted_body msgs ++ "Assistant: "

/-- If from context `x` the per-step sampler returns the non-EOS ids
`ts` in order and then the EOS id, with fuel to spare, the loop emits
exactly the fragments of `ts`, then the success terminal, and exits in
the EOS state — the EOS id itself is never decoded into a fragment. -/
theorem generation_loop_eos_of_trajectory
    (σ : List ℕ → Except String ℕ) (tok : Tokenizer) (eos : ℕ) :
    ∀ (ts x : List ℕ) (fuel : ℕ), ts.length < fuel →
      (∀ i (h : i < ts.length),
        σ (x ++ ts.take i) = Except.ok ts[i] ∧ ts[i] ≠ eos) →
      σ (x ++ ts) = Except.ok eos →
      generation_loop σ tok eos fuel x =
        (ts.map (token_event tok) ++ [Event.done], StopState.eos) := by
  intro ts
  induction ts with
  | nil =>
    intro x fuel hfuel hsteps heos
    match fuel, hfuel with
    | fuel + 1, _ =>
      simp only [List.append_nil] at heos
      simp [generation_loop, heos]
  | cons t ts ih =>
    intro x fuel hfuel hsteps heos
    match fuel, hfuel with
    | fuel + 1, hfuel =>
      have h0 := hsteps 0 (by simp)
      simp only [List.take_zero, List.append_nil, List.getElem_cons_zero] at h0
      have hrest : generation_loop σ tok eos fuel (x ++ [t]) =
          (ts.map (token_event tok) ++ [Event.done], StopState.eos) := by
        apply ih (x ++ [t]) fuel (by simpa using Nat.lt_of_succ_lt_succ hfuel)
        · intro i h
          have := hsteps (i + 1) (by simpa using Nat.succ_lt_succ h)
          simpa [List.take_succ_cons, List.append_assoc] using this
        · simpa [List.append_assoc] using heos
      simp [generation_loop, h0.1, h0.2, hrest, token_event]

/-- If from context `x` the per-step sampler returns the non-EOS ids
`ts` in order and the fuel is exactly `ts.length`, the loop emits the
fragments of `ts`, then the success terminal, and exits in the
max-length state. -/
theorem generation_loop_maxlen_of_trajectory
    (σ : List ℕ → Except String ℕ) (tok : Tokenizer) (eos : ℕ) :
    ∀ (ts x : List ℕ),
      (∀ i (h : i < ts.length),
        σ (x ++ ts.take i) = Except.ok ts[i] ∧ ts[i] ≠ eos) →
      generation_loop σ tok eos ts.length x =
        (ts.map (token_event tok) ++ [Event.done], StopState.maxlen) := by
  intro ts
  induction ts with
  | nil =>
    intro x _
    simp [generation_loop]
  | cons t ts ih =>
    intro x hsteps
    have h0 := hsteps 0 (by simp)
    simp only [List.take_zero, List.append_nil, List.getElem_cons_zero] at h0
    have hrest : generation_loop σ tok eos ts.length (x ++ [t]) =
        (ts.map (token_event tok) ++ [Event.done], StopState.maxlen) := by
      apply ih (x ++ [t])
      intro i h
      have := hsteps (i + 1) (by simpa using Nat.succ_lt_succ h)
      simpa [List.take_succ_cons, List.append_assoc] using this
    simp [List.length_cons, generation_loop, h0.1, h0.2, hrest, token_event]

/-- Whatever the oracles do, the loop's event list is a block of token
fragments followed by exactly one terminal event, success or error. -/
theorem generation_loop_shape
    (σ : List ℕ → Except String ℕ) (tok : Tokenizer) (eos : ℕ) :
    ∀ (fuel : ℕ) (x : List ℕ), ∃ (frags : List String) (term : Event),
      (generation_loop σ tok eos fuel x).1 = frags.map Event.token ++ [term] ∧
      (term = Event.done ∨ ∃ m, term = Event.error m) := by
  intro fuel
  induction fuel with
  | zero =>
    intro x
    exact ⟨[], Event.done, by simp [generation_loop], Or.inl rfl⟩
  | succ fuel ih =>
    intro x
    cases hσ : σ x with
    | error e =>
      exact ⟨[], Event.error e, by simp [generation_loop, hσ], Or.inr ⟨e, rfl⟩⟩
    | ok t =>
      by_cases ht : t = eos
      · exact ⟨[], Event.done, by simp [generation_loop, hσ, ht], Or.inl rfl⟩
      · obtain ⟨frags, term, hshape, hterm⟩ := ih (x ++ [t])
        exact ⟨decode_token tok (Int.ofNat t) :: frags, term,
          by simp [generation_loop, hσ, ht, hshape], hterm⟩

/-- C1: a generation whose per-step sampler produces the non-EOS ids
`ts` from the initial context and then samples the resolved EOS id at
step `k = ts.length < max_tokens` emits exactly the `k` fragment events
of `ts` — the EOS id is never decoded or emitted as a fragment — and
ends in the EOS-stopped state (the source then still yields the success
terminal, line 330). -/
theorem stream_completion_eos_stop
    (forward : List ℕ → Except String (List ℚ))
    (sample : List (Option ℚ) → Except String ℕ) (tok : Tokenizer)
    (msgs : List ChatMessage) (temperature : ℚ) (top_k : Option ℤ)
    (max_tokens : ℕ) (x0 ts : List ℕ)
    (hinit : initial_context tok msgs = Except.ok x0)
    (hlen : ts.length < max_tokens)
    (hsteps : ∀ i (h : i < ts.length),
      sample_next_token forward sample temperature top_k (x0 ++ ts.take i) =
        Except.ok ts[i] ∧ ts[i] ≠ eos_token_id tok)
    (heos : sample_next_token forward sample temperature top_k (x0 ++ ts) =
      Except.ok (eos_token_id tok)) :
    stream_completion forward sample tok msgs temperature max_tokens top_k =
      (ts.map (token_event tok) ++ [Event.done], StopState.eos) := by
  unfold stream_completion
  rw [hinit]
  exact generation_loop_eos_of_trajectory _ tok _ ts x0 max_tokens hlen hsteps heos

/-- Concrete run of C1: `fwdLen`/`smpEos` sample token 65 once and then
the EOS id 2 at step 1 < 3; exactly one fragment event is emitted. -/
theorem stream_completion_eos_stop_witness :
    stream_completion fwdLen smpEos charFallbackTokenizer msgsHi 0 3 (some 50) =
      ([Event.token "A", Event.done], StopState.eos) := by
  have h := stream_completion_eos_stop fwdLen smpEos charFallbackTokenizer msgsHi
    0 (some 50) 3 ctxHi [65] (by rfl) (by decide)
    (by
      intro i h
      have h' : i < 1 := h
      have hi : i = 0 := by omega
      subst hi
      exact ⟨by rfl, by show (65:ℕ) ≠ eos_token_id charFallbackTokenizer; decide⟩)
    (by rfl)
  exact h.trans (by rfl)

/-- C2: a generation whose per-step sampler produces `max_tokens`
non-EOS ids without an exception emits exactly `max_tokens` fragment
events, then the success terminal, and ends in the max-length-stopped
state. -/
theorem stream_completion_maxlen_stop
    (forward : List ℕ → Except String (List ℚ))
    (sample : List (Option ℚ) → Except String ℕ) (tok : Tokenizer)
    (msgs : List ChatMessage) (temperature : ℚ) (top_k : Option ℤ)
    (max_tokens : ℕ) (x0 ts : List ℕ)
    (hinit : initial_context tok msgs = Except.ok x0)
    (hlen : ts.length = max_tokens)
    (hsteps : ∀ i (h : i < ts.length),
      sample_next_token forward sample temperature top_k (x0 ++ ts.take i) =
        Except.ok ts[i] ∧ ts[i] ≠ eos_token_id tok) :
    stream_completion forward sample tok msgs temperature max_tokens top_k =
      (ts.map (token_event tok) ++ [Event.done], StopState.maxlen) := by
  unfold stream_completion
  rw [hinit, ← hlen]
  exact generation_loop_maxlen_of_trajectory _ tok _ ts x0 hsteps

/-- Concrete run of C2: `fwdLen`/`smpAB` sample tokens 65 and 66, never
the EOS id, with `max_tokens = 2`; exactly two fragment events are
emitted and the run stops on length. -/
theorem stream_completion_maxlen_stop_witness :
    stream_completion fwdLen smpAB charFallbackTokenizer msgsHi 0 2 (some 50) =
      ([Event.token "A", Event.token "B", Event.done], StopState.maxlen) := by
  have h := stream_completion_maxlen_stop fwdLen smpAB charFallbackTokenizer msgsHi
    0 (some 50) 2 ctxHi [65, 66] (by rfl) rfl
    (by
      intro i h
      match i, h with
      | 0, _ => exact ⟨by rfl, by show (65:ℕ) ≠ eos_token_id charFallbackTokenizer; decide⟩
      | 1, _ => exact ⟨by rfl, by show (66:ℕ) ≠ eos_token_id charFallbackTokenizer; decide⟩)
  exact h.trans (by rfl)

/-- C5: every run of `stream_completion` produces a block of fragment
events in emission order followed by exactly one terminal event —
success or error, never both; in particular a failure inside the
per-step loop surfaces as that terminal error event, not as an
exception past the streaming boundary (the embedding is a total
function into an event list). -/
theorem stream_completion_event_shape
    (forward : List ℕ → Except String (List ℚ))
    (sample : List (Option ℚ) → Except String ℕ) (tok : Tokenizer)
    (msgs : List ChatMessage) (temperature : ℚ) (max_tokens : ℕ)
    (top_k : Option ℤ) :
    ∃ (frags : List String) (term : Event),
      (stream_completion forward sample tok msgs temperature max_tokens top_k).1 =
        frags.map Event.token ++ [term] ∧
      (term = Event.done ∨ ∃ m, term = Event.error m) := by
  unfold stream_completion
  cases hinit : initial_context tok msgs with
  | error e => exact ⟨[], Event.error e, by simp, Or.inr ⟨e, rfl⟩⟩
  | ok x0 => exact generation_loop_shape _ tok _ max_tokens x0


/-- C6: decoding a single id never raises — `decode_token` is a total
function — and the `try/except` does what the claim says: either the
inner decode attempt succeeded and its value is returned, or the result
is the placeholder `"?"`; moreover on the character-fallback path an
out-of-range id always yields the placeholder. -/
theorem decode_token_total_placeholder (tok : Tokenizer) (tid : ℤ) :
    (decode_token_attempt tok tid = Except.ok (decode_token tok tid) ∨
      decode_token tok tid = "?") ∧
    (tok.decode? = none → tok.decodeSingleTokenUtf8? = none →
      (tid < 0 ∨ 256 ≤ tid) → decode_token tok tid = "?") := by
  constructor
  · cases h : decode_token_attempt tok tid with
    | ok s => left; rw [decode_token, h]
    | error e => right; rw [decode_token, h]
  · intro h1 h2 h3
    have hnot : ¬ (0 ≤ tid ∧ tid < 256) := by omega
    rw [decode_token, decode_token_attempt, h1, h2, if_neg hnot]

/-- Concrete instance of C6: id 300 on a tokenizer with no decode
capability comes back as the placeholder, not an exception. -/
theorem decode_token_total_placeholder_witness :
    decode_token charFallbackTokenizer 300 = "?" :=
  (decode_token_total_placeholder charFallbackTokenizer 300).2 rfl rfl
    (Or.inr (by norm_num))

/-- Unfolded form of `messages_tokens` on a cons cell. -/
theorem messages_tokens_cons (tok : Tokenizer) (m : ChatMessage)
    (rest : List ChatMessage) :
    messages_tokens tok (m :: rest) =
      Except.bind
        (match format_message m with
         | some s => encode_text tok s
         | none => Except.ok [])
        (fun here => Except.bind (messages_tokens tok rest)
          (fun there => Except.ok (here ++ there))) := rfl

/-- A message whose role is neither `"user"` nor `"assistant"`
contributes nothing to the message loop. -/
theorem messages_tokens_skip (tok : Tokenizer) (m : ChatMessage)
    (rest : List ChatMessage) (hfmt : format_message m = none) :
    messages_tokens tok (m :: rest) = messages_tokens tok rest := by
  rw [messages_tokens_cons, hfmt]
  cases h : messages_tokens tok rest <;> rfl

/-- Dropping all messages whose role is neither `"user"` nor
`"assistant"` leaves the message loop's result unchanged. -/
theorem messages_tokens_filter (tok : Tokenizer) :
    ∀ msgs : List ChatMessage,
      messages_tokens tok (msgs.filter keeps_role) = messages_tokens tok msgs := by
  intro msgs
  induction msgs with
  | nil => rfl
  | cons m rest ih =>
    by_cases hkeep : keeps_role m = true
    · rw [List.filter_cons_of_pos (p := keeps_role) hkeep,
        messages_tokens_cons, messages_tokens_cons, ih]
    · have hfmt : format_message m = none := by
        simp only [keeps_role, Bool.or_eq_true, beq_iff_eq] at hkeep
        push_neg at hkeep
        simp [format_message, hkeep.1, hkeep.2]
      rw [List.filter_cons_of_neg (p := keeps_role) hkeep,
        ih, messages_tokens_skip tok m rest hfmt]

/-- Unfolded form of `build_conversation_tokens`. -/
theorem build_conversation_tokens_eq (tok : Tokenizer)
    (msgs : List ChatMessage) :
    build_conversation_tokens tok msgs =
      Except.bind (messages_tokens tok msgs) (fun body =>
        Except.bind (encode_text tok "Assistant: ")
          (fun sfx => Except.ok (body ++ sfx))) := rfl

/-- C9: only messages whose role is exactly `"user"` or `"assistant"`
contribute tokens — the computation is unchanged when every other
message (e.g. role `"system"`) is dropped — and every successful
encoding ends with the encoding of the assistant-turn opener
`"Assistant: "`. -/
theorem build_tokens_roles_and_ending (tok : Tokenizer)
    (msgs : List ChatMessage) :
    build_conversation_tokens tok msgs =
      build_conversation_tokens tok (msgs.filter keeps_role) ∧
    ∀ l, build_conversation_tokens tok msgs = Except.ok l →
      ∃ sfx, encode_text tok "Assistant: " = Except.ok sfx ∧ sfx <:+ l := by
  constructor
  · rw [build_conversation_tokens_eq, build_conversation_tokens_eq,
      messages_tokens_filter]
  · intro l hl
    rw [build_conversation_tokens_eq] at hl
    cases hbody : messages_tokens tok msgs with
    | error e => rw [hbody] at hl; exact absurd hl (by simp [Except.bind])
    | ok body =>
      rw [hbody] at hl
      cases hsfx : encode_text tok "Assistant: " with
      | error e => rw [hsfx] at hl; exact absurd hl (by simp [Except.bind])
      | ok sfx =>
        rw [hsfx] at hl
        refine ⟨sfx, rfl, body, ?_⟩
        simpa [Except.bind] using hl

/-- Concrete instance of C9: the `"system"` message of `msgsSys` adds
no tokens, and the result ends with the fallback tokens of
`"Assistant: "`. -/
theorem build_tokens_roles_and_ending_witness :
    build_conversation_tokens charFallbackTokenizer msgsSys =
      build_conversation_tokens charFallbackTokenizer (msgsSys.filter keeps_role) ∧
    ∃ sfx, encode_text charFallbackTokenizer "Assistant: " = Except.ok sfx ∧
      sfx <:+ ctxHi :=
  ⟨(build_tokens_roles_and_ending charFallbackTokenizer msgsSys).1,
   (build_tokens_roles_and_ending charFallbackTokenizer msgsSys).2 ctxHi (by rfl)⟩

/-- With the encode capability absent, the message loop produces
exactly the code points of the formatted message text. -/
theorem messages_tokens_fallback (tok : Tokenizer) (henc : tok.encode? = none) :
    ∀ msgs : List ChatMessage,
      messages_tokens tok msgs =
        Except.ok ((formatted_body msgs).data.map Char.toNat) := by
  intro msgs
  induction msgs with
  | nil => rfl
  | cons m rest ih =>
    rw [messages_tokens_cons, ih]
    cases hfmt : format_message m with
    | none =>
      simp [Except.bind, formatted_body, hfmt,
        show ("" : String).data = [] from rfl]
    | some s =>
      simp [Except.bind, formatted_body, hfmt, encode_text, henc,
        String.data_append]

/-- C7 (amended): when the tokenizer's encode capability is absent,
`_build_conversation_tokens` maps each character of the formatted
conversation text to exactly one token, whose value is the character's
Unicode code point (`ord(c)`) — which is not restricted to 0-255. -/
theorem char_fallback_codepoints (tok : Tokenizer) (msgs : List ChatMessage)
    (henc : tok.encode? = none) :
    build_conversation_tokens tok msgs =
      Except.ok ((formatted_text msgs).data.map Char.toNat) := by
  rw [build_conversation_tokens_eq, messages_tokens_fallback tok henc]
  simp [Except.bind, encode_text, henc, formatted_text, String.data_append]

/-- Concrete instance of the amended C7. -/
theorem char_fallback_codepoints_witness :
    build_conversation_tokens charFallbackTokenizer msgsHi =
      Except.ok ((formatted_text msgsHi).data.map Char.toNat) :=
  char_fallback_codepoints charFallbackTokenizer msgsHi rfl

/-- C7 fails as stated: the fallback encoding of a user message whose
content is `"€"` contains the token 8364 — `ord` yields the Unicode
code point, and the code never restricts it to 0-255. -/
theorem char_fallback_exceeds_byte_range :
    build_conversation_tokens charFallbackTokenizer [⟨"user", "€"⟩] =
      Except.ok [85, 115, 101, 114, 58, 32, 8364, 10,
                 65, 115, 115, 105, 115, 116, 97, 110, 116, 58, 32] ∧
    ¬ (∀ t ∈ [85, 115, 101, 114, 58, 32, 8364, 10,
              65, 115, 115, 105, 115, 116, 97, 110, 116, 58, 32], t ≤ 255) :=
  ⟨by rfl, by decide⟩

/-- `initial_context` in terms of `build_conversation_tokens`. -/
theorem initial_context_eq (tok : Tokenizer) (msgs : List ChatMessage) :
    initial_context tok msgs =
      (build_conversation_tokens tok msgs).map
        (fun l => if l = [] then [1] else l) := by
  unfold initial_context
  cases build_conversation_tokens tok msgs <;> rfl

/-- C8: whenever the initial context is built (the conversation
encoding did not raise), it is a non-empty token sequence, and when the
conversation encoding was empty it is exactly the sentinel `[1]` — so
the decoding loop always starts from a valid non-empty context. -/
theorem initial_context_nonempty (tok : Tokenizer) (msgs : List ChatMessage)
    (ts : List ℕ) (h : initial_context tok msgs = Except.ok ts) :
    ts ≠ [] ∧ (build_conversation_tokens tok msgs = Except.ok [] → ts = [1]) := by
  rw [initial_context_eq] at h
  cases hb : build_conversation_tokens tok msgs with
  | error e => rw [hb] at h; exact absurd h (by simp [Except.map])
  | ok l =>
    rw [hb] at h
    have hts : (if l = [] then [1] else l) = ts := by
      simpa [Except.map] using h
    by_cases hl : l = []
    · rw [if_pos hl] at hts
      exact ⟨hts ▸ (by simp), fun _ => hts.symm⟩
    · rw [if_neg hl] at hts
      refine ⟨hts ▸ hl, fun hok => ?_⟩
      have hle : l = [] := by simpa using hok
      exact absurd hle hl

/-- Concrete instance of C8: a tokenizer whose encode returns the empty
list still yields the non-empty sentinel context `[1]`. -/
theorem initial_context_nonempty_witness :
    initial_context emptyEncodeTokenizer [] = Except.ok [1] ∧
    ([1] : List ℕ) ≠ [] :=
  ⟨by rfl, (initial_context_nonempty emptyEncodeTokenizer [] [1] (by rfl)).1⟩

/-- C3 fails as stated: a request temperature of `-1` is clamped to
exactly `0`, which is outside `(0, 2]` — the clamp is into `[0, 2]`. -/
theorem temperature_clamp_not_positive :
    clamp_temperature (some (-1)) = 0 ∧
    ¬ (0 < clamp_temperature (some (-1))) := by
  have h : clamp_temperature (some (-1)) = 0 := by
    norm_num [clamp_temperature, pyOrQ]
  exact ⟨h, by rw [h]; exact lt_irrefl 0⟩

/-- C3 (amended): the endpoint clamps the temperature into `[0, 2]` —
zero is reachable, for non-positive request temperatures — and
`max_tokens` into `[1, 4096]`; the sampler divides logits by the
temperature only under the guard `temperature > 0`, so the division
never divides by zero: either the clamped temperature is strictly
positive, or the logits pass through unscaled. -/
theorem clamp_bounds_and_no_div_by_zero (t : Option ℚ) (m : Option ℤ)
    (lg : List ℚ) :
    0 ≤ clamp_temperature t ∧ clamp_temperature t ≤ 2 ∧
    1 ≤ clamp_max_tokens m ∧ clamp_max_tokens m ≤ 4096 ∧
    (0 < clamp_temperature t ∨ scale_logits (clamp_temperature t) lg = lg) := by
  refine ⟨le_max_left 0 _, ?_, le_max_left 1 _, ?_, ?_⟩
  · exact max_le (by norm_num) (min_le_left _ _)
  · exact max_le (by norm_num) (min_le_left _ _)
  · by_cases h : 0 < clamp_temperature t
    · exact Or.inl h
    · exact Or.inr (by rw [scale_logits, if_neg h])

/-- An index within bounds never has full rank: it does not precede
itself in the top-k order. -/
theorem top_k_rank_lt_length (lg : List ℚ) (i : ℕ) (hi : i < lg.length) :
    top_k_rank lg i < lg.length := by
  rw [top_k_rank]
  have hlen : ((List.range lg.length).filter
      (fun j => decide (lg.getD i 0 < lg.getD j 0 ∨
        (lg.getD j 0 = lg.getD i 0 ∧ j < i)))).length < (List.range lg.length).length := by
    rw [List.length_filter_lt_length_iff_exists]
    exact ⟨i, List.mem_range.mpr hi, by simp⟩
  simpa using hlen

/-- When `k` is at least the vocabulary size, the top-k mask keeps
every candidate. -/
theorem top_k_mask_keeps_all (k : ℕ) (lg : List ℚ) (hn : lg.length ≤ k) :
    top_k_mask k lg = lg.map some := by
  rw [top_k_mask, min_eq_right hn]
  apply List.ext_getElem
  · simp
  · intro i h1 h2
    have hi : i < lg.length := by simpa using h2
    simp only [List.getElem_map, List.getElem_range]
    rw [if_pos (top_k_rank_lt_length lg i hi)]
    rw [List.getD_eq_getElem lg 0 hi]

/-- C4 (amended): setting `top_p` has no effect — the request schema
has no `top_p` field, and the per-step filtering applies only
temperature scaling and top-k masking; in particular whenever `top_k`
is at least the vocabulary size the filter masks no candidate at all,
regardless of cumulative probabilities (whereas nucleus filtering with
`top_p < 1` would mask some). -/
theorem filter_is_top_k_only (temperature : ℚ) (k : ℤ) (lg : List ℚ)
    (hk : 0 < k) (hn : lg.length ≤ k.toNat) :
    filter_logits temperature (some k) lg =
      Except.ok ((scale_logits temperature lg).map some) := by
  have hlen : (scale_logits temperature lg).length = lg.length := by
    rw [scale_logits]
    split <;> simp
  rw [filter_logits]
  simp only [if_pos hk]
  rw [top_k_mask_keeps_all k.toNat _ (by rw [hlen]; exact hn)]

/-- Concrete instance of the amended C4. -/
theorem filter_is_top_k_only_witness :
    filter_logits 0 (some 5) [3, 1, 2] =
      Except.ok ((scale_logits 0 [3, 1, 2]).map some) :=
  filter_is_top_k_only 0 5 [3, 1, 2] (by decide) (by decide)

/-- C4 fails as stated: at the four equal logits `[0,0,0,0]` (whose
softmax probabilities are `1/4` each) with the default `top_k = 50`,
the code's per-step filter masks no candidate, while the claimed
nucleus filtering with `top_p = 1/2` keeps only 2 of the 4 candidates
and masks the other 2 — no nucleus filtering exists in the code. -/
theorem no_nucleus_filtering_counterexample :
    filter_logits 0 (some 50) [0, 0, 0, 0] =
      Except.ok [some 0, some 0, some 0, some 0] ∧
    nucleus_keep_count (1/2) [1/4, 1/4, 1/4, 1/4] = 2 ∧
    ([some (0:ℚ), some 0, some 0, some 0].countP (fun v => v.isNone)) = 0 ∧
    (0 : ℕ) ≠ 4 - nucleus_keep_count (1/2) [1/4, 1/4, 1/4, 1/4] := by
  have hnuc : nucleus_keep_count (1/2) [1/4, 1/4, 1/4, 1/4] = 2 := by
    norm_num [nucleus_keep_count, sort_desc, insert_desc, nucleus_take]
  refine ⟨by rfl, hnuc, by rfl, ?_⟩
  rw [hnuc]
  decide

/-- With `top_k = None`, one loop iteration always raises: either the
forward pass fails, or the `top_k > 0` comparison does — and in the
latter case no sampling has happened. -/
theorem sample_next_token_top_k_none
    (forward : List ℕ → Except String (List ℚ))
    (sample : List (Option ℚ) → Except String ℕ)
    (temperature : ℚ) (x : List ℕ) :
    ∃ m, sample_next_token forward sample temperature none x =
      Except.error m := by
  rw [sample_next_token]
  cases hf : forward x with
  | error e => exact ⟨e, rfl⟩
  | ok lg => exact ⟨_, rfl⟩

/-- With `top_k = None` and at least one unit of fuel, the stream is a
single terminal error event, whatever the oracles are. -/
theorem stream_completion_top_k_none
    (forward : List ℕ → Except String (List ℚ))
    (sample : List (Option ℚ) → Except String ℕ) (tok : Tokenizer)
    (msgs : List ChatMessage) (temperature : ℚ) (mt : ℕ) (hmt : 1 ≤ mt) :
    ∃ m, stream_completion forward sample tok msgs temperature mt none =
      ([Event.error m], StopState.failed) := by
  unfold stream_completion
  cases hinit : initial_context tok msgs with
  | error e => exact ⟨e, rfl⟩
  | ok x0 =>
    obtain ⟨f, hf⟩ : ∃ f, mt = f + 1 := ⟨mt - 1, by omega⟩
    subst hf
    obtain ⟨m, hm⟩ := sample_next_token_top_k_none forward sample temperature x0
    exact ⟨m, by simp [generation_loop, hm]⟩

/-- C10: a request whose `top_k` field is explicitly `0` (or null) is
clamped to `None`; the loop's unconditional `top_k > 0` comparison then
raises on the first iteration, before any token is sampled, so the
endpoint's stream consists of zero token events and a single terminal
error event, in the failed state, instead of generating with top-k
disabled. -/
theorem top_k_none_stream_errors
    (forward : List ℕ → Except String (List ℚ))
    (sample : List (Option ℚ) → Except String ℕ) (tok : Tokenizer)
    (req : ChatCompletionRequest)
    (hk : req.top_k = some 0 ∨ req.top_k = none)
    (hne : req.messages ≠ [])
    (hcount : req.messages.length ≤ 500) :
    clamp_top_k req.top_k = none ∧
    ∃ m, chat_completions forward sample tok req =
      Except.ok ([Event.error m], StopState.failed) := by
  have hclamp : clamp_top_k req.top_k = none := by
    rcases hk with h | h <;> rw [h] <;> simp [clamp_top_k]
  refine ⟨hclamp, ?_⟩
  rw [chat_completions, if_neg hne, if_neg (by omega), hclamp]
  have hmt : 1 ≤ (clamp_max_tokens req.max_tokens).toNat := by
    have h1 : 1 ≤ clamp_max_tokens req.max_tokens := le_max_left 1 _
    omega
  obtain ⟨m, hm⟩ := stream_completion_top_k_none forward sample tok req.messages
    (clamp_temperature req.temperature) (clamp_max_tokens req.max_tokens).toNat hmt
  exact ⟨m, by rw [hm]⟩

/-- Concrete instance of C10: the request `reqTopKZero` (top_k = 0)
produces exactly one error event and no token events. -/
theorem top_k_none_stream_errors_witness :
    clamp_top_k reqTopKZero.top_k = none ∧
    ∃ m, chat_completions fwdLen smpEos charFallbackTokenizer reqTopKZero =
      Except.ok ([Event.error m], StopState.failed) :=
  top_k_none_stream_errors fwdLen smpEos charFallbackTokenizer reqTopKZero
    (Or.inl rfl) (by decide) (by decide)
